import Mathlib

/-!
Verification of the file-ingestion-and-content-assembly pipeline of a Slack
chat bot (source: `src/file-handler.ts`).  The TypeScript class `FileHandler`
is shallowly embedded: buffers become `List Nat` (one entry per byte),
JavaScript strings become `String`, the network and the filesystem become
explicit oracle functions carried in environment records, exceptions that the
source catches become `Option` results, and the side effect of deleting a
temporary file becomes the list of paths whose deletion is attempted.
-/

namespace FileHandlerModel

/-- Raw bytes of a downloaded body or a file on disk (`Buffer` in the source). -/
abbrev Buffer := List Nat

/-- Mirror of the `ProcessedFile` interface of `file-handler.ts`. -/
structure ProcessedFile where
  path : String
  name : String
  mimetype : String
  isImage : Bool
  isText : Bool
  size : Nat
  tempPath : Option String := none
deriving Repr, DecidableEq

/-- Mirror of the `ContentBlock` union of `file-handler.ts`: a text block or a
base64 image block.  The media type stays a string, as in the source, where
`ImageMediaType` is a union of four string literals. -/
inductive ContentBlock where
  | image (media_type : String) (data : String)
  | text (text : String)
deriving Repr, DecidableEq

/-- Model of JavaScript `String.prototype.startsWith` on the character lists
underlying the two strings. -/
def listStartsWith : List Char → List Char → Bool
  | [], _ => true
  | _ :: _, [] => false
  | a :: as, b :: bs => a == b && listStartsWith as bs

/-- Model of `s.startsWith(p)` from the source. -/
def jsStartsWith (s p : String) : Bool :=
  listStartsWith p.data s.data

/-- Embedding of `FileHandler.hasValidImageHeader` (lines 138-152 of the
source): magic-byte sniffing for PNG, JPEG, GIF and WebP.  Byte `i` of the
buffer is read as `buffer.getD i 0`; every read in the source is guarded by a
length check, so the default is never consulted on the source's paths. -/
def hasValidImageHeader (buffer : Buffer) : Bool :=
  if buffer.length < 4 then false
  else if buffer.getD 0 0 == 0x89 && buffer.getD 1 0 == 0x50 &&
          buffer.getD 2 0 == 0x4E && buffer.getD 3 0 == 0x47 then true
  else if buffer.getD 0 0 == 0xFF && buffer.getD 1 0 == 0xD8 &&
          buffer.getD 2 0 == 0xFF then true
  else if buffer.getD 0 0 == 0x47 && buffer.getD 1 0 == 0x49 &&
          buffer.getD 2 0 == 0x46 && buffer.getD 3 0 == 0x38 then true
  else if buffer.getD 0 0 == 0x52 && buffer.getD 1 0 == 0x49 &&
          buffer.getD 2 0 == 0x46 && buffer.getD 3 0 == 0x46 &&
          decide (12 ≤ buffer.length) &&
          buffer.getD 8 0 == 0x57 && buffer.getD 9 0 == 0x45 &&
          buffer.getD 10 0 == 0x42 && buffer.getD 11 0 == 0x50 then true
  else false

/-- Embedding of `FileHandler.isImageFile`. -/
def isImageFile (mimetype : String) : Bool :=
  jsStartsWith mimetype "image/"

/-- The `textTypes` array of `FileHandler.isTextFile`. -/
def textTypes : List String :=
  ["text/", "application/json", "application/javascript", "application/typescript",
   "application/xml", "application/yaml", "application/x-yaml"]

/-- Embedding of `FileHandler.isTextFile`. -/
def isTextFile (mimetype : String) : Bool :=
  textTypes.any (fun t => jsStartsWith mimetype t)

theorem listStartsWith_iff :
    ∀ (p l : List Char), listStartsWith p l = true ↔ ∃ rest, l = p ++ rest := by
  intro p
  induction p with
  | nil =>
    intro l
    simp [listStartsWith]
  | cons a as ih =>
    intro l
    cases l with
    | nil =>
      simp [listStartsWith]
    | cons b bs =>
      simp only [listStartsWith, Bool.and_eq_true, beq_iff_eq, ih bs,
        List.cons_append, List.cons.injEq]
      constructor
      · rintro ⟨rfl, rest, rfl⟩
        exact ⟨rest, rfl, rfl⟩
      · rintro ⟨rest, rfl, rfl⟩
        exact ⟨rfl, rest, rfl⟩

theorem jsStartsWith_iff (s p : String) :
    jsStartsWith s p = true ↔ ∃ rest, s.data = p.data ++ rest :=
  listStartsWith_iff p.data s.data

/-! ## Downloader -/

/-- The shape of a Slack file-attachment descriptor as `downloadFile` reads it
(the source types it `any`; these are the fields consulted). The URL fields are
optional, matching absent properties of the loose record. -/
structure SlackFile where
  name : String
  mimetype : String
  size : Nat
  url_private_download : Option String := none
  url_private : Option String := none
deriving Repr, DecidableEq

/-- The part of a `node-fetch` response that `downloadFile` consults. -/
structure HttpResponse where
  ok : Bool
  status : Nat
  body : Buffer
deriving Repr, DecidableEq

/-- The ambient effects of `downloadFile`: the network (`fetch`, where `none`
models a thrown network error, caught by the source's `try`), the OS temp
directory, and the clock (`Date.now()`).  Disk writes are modelled as always
succeeding. -/
structure NetEnv where
  fetch : String → Option HttpResponse
  tmpdir : String
  now : Nat

/-- Model of `file.url_private_download || file.url_private` followed by the
`if (!downloadUrl) throw` guard: the first present, non-empty (JS-truthy) URL,
or `none` when both are absent or empty. -/
def resolveDownloadUrl (a b : Option String) : Option String :=
  match a with
  | some s =>
    if s ≠ "" then some s
    else
      match b with
      | some t => if t ≠ "" then some t else none
      | none => none
  | none =>
    match b with
    | some t => if t ≠ "" then some t else none
    | none => none

/-- The temp path `path.join(os.tmpdir(), ` followed by the template
`slack-file-<now>-<name>)` built at line 110 of the source. -/
def mkTempPath (env : NetEnv) (name : String) : String :=
  env.tmpdir ++ "/" ++ "slack-file-" ++ toString env.now ++ "-" ++ name

/-- The 50 MiB size ceiling `50 * 1024 * 1024` of line 58. -/
def sizeLimit : Nat := 50 * 1024 * 1024

/-- Embedding of `FileHandler.downloadFile` (lines 56-136).  Every failure the
source catches (missing URL, network error, non-OK status, invalid image
signature) returns `none`, as does the up-front size rejection. -/
def downloadFile (env : NetEnv) (file : SlackFile) : Option ProcessedFile :=
  if sizeLimit < file.size then none
  else
    match resolveDownloadUrl file.url_private_download file.url_private with
    | none => none
    | some downloadUrl =>
      match env.fetch downloadUrl with
      | none => none
      | some response =>
        if !response.ok then none
        else if isImageFile file.mimetype && !hasValidImageHeader response.body then none
        else
          some { path := mkTempPath env file.name
                 name := file.name
                 mimetype := file.mimetype
                 isImage := isImageFile file.mimetype
                 isText := isTextFile file.mimetype
                 size := file.size
                 tempPath := some (mkTempPath env file.name) }

/-- Embedding of `FileHandler.downloadAndProcessFiles` (lines 39-54): the
sequential loop that keeps each non-null result and drops failures. -/
def downloadAndProcessFiles (env : NetEnv) : List SlackFile → List ProcessedFile
  | [] => []
  | file :: rest =>
    match downloadFile env file with
    | some processed => processed :: downloadAndProcessFiles env rest
    | none => downloadAndProcessFiles env rest

/-- Embedding of `FileHandler.cleanupTempFiles` (lines 250-261), observed
through the paths whose deletion it attempts: `fs.unlinkSync(file.tempPath)`
is attempted exactly for the files whose `tempPath` is JS-truthy (present and
non-empty); deletion failures are swallowed by the source. -/
def cleanupTempFiles (files : List ProcessedFile) : List String :=
  files.filterMap fun file =>
    match file.tempPath with
    | some p => if p ≠ "" then some p else none
    | none => none

/-! ## Content block builder -/

/-- The base64 alphabet used by `Buffer.prototype.toString('base64')`. -/
def base64Chars : List Char :=
  "ABCDEFGHIJKLMNOPQRSTUVWXYZabcdefghijklmnopqrstuvwxyz0123456789+/".data

/-- The base64 digit for a 6-bit value. -/
def base64Char (n : Nat) : Char := base64Chars.getD n 'A'

/-- Model of `imageBuffer.toString('base64')`: standard base64 with padding,
three input bytes per four output digits. -/
def base64Encode : Buffer → String
  | [] => ""
  | [a] =>
    String.mk [base64Char (a / 4 % 64), base64Char (a % 4 * 16)] ++ "=="
  | [a, b] =>
    String.mk [base64Char (a / 4 % 64), base64Char (a % 4 * 16 + b / 16 % 16),
      base64Char (b % 16 * 4)] ++ "="
  | a :: b :: c :: rest =>
    String.mk [base64Char (a / 4 % 64), base64Char (a % 4 * 16 + b / 16 % 16),
      base64Char (b % 16 * 4 + c / 64 % 4), base64Char (c % 64)] ++ base64Encode rest

/-- The `supported` array of `FileHandler.toImageMediaType` (lines 245-248). -/
def supportedMediaTypes : List String :=
  ["image/jpeg", "image/png", "image/gif", "image/webp"]

/-- Embedding of `FileHandler.toImageMediaType`. -/
def toImageMediaType (mimetype : String) : Option String :=
  if supportedMediaTypes.contains mimetype then some mimetype else none

/-- Model of JavaScript `Array.prototype.join` applied with separator
`"\n\n"`, as in `textParts.join('\n\n')`. -/
def joinParts : List String → String
  | [] => ""
  | [x] => x
  | x :: y :: rest => x ++ "\n\n" ++ joinParts (y :: rest)

/-- Model of `content.substring(0, n)`. -/
def jsSubstring (s : String) (n : Nat) : String := String.mk (s.data.take n)

/-- The filesystem as `buildContentBlocks` sees it: `readBytes` models
`fs.readFileSync(path)` and `readText` models `fs.readFileSync(path, 'utf-8')`;
`none` models a thrown read error, caught by the source. -/
structure FsEnv where
  readBytes : String → Option Buffer
  readText : String → Option String

/-- The generic directive appended when there is no user text (line 230). -/
def analyzeDirective : String :=
  "Please analyze these files and provide insights or assistance based on their content."

/-- The flush step at lines 184-187 of the source: accumulated text fragments
become one `TextBlock` before an image is emitted. -/
def flushParts (blocks : List ContentBlock) (textParts : List String) :
    List ContentBlock × List String :=
  if 0 < textParts.length then
    (blocks ++ [ContentBlock.text (joinParts textParts)], ([] : List String))
  else (blocks, textParts)

/-- One iteration of the `for (const file of files)` loop of
`buildContentBlocks` (lines 181-226), transforming the accumulated
`(blocks, textParts)` pair. -/
def processFile (env : FsEnv) (file : ProcessedFile)
    (blocks : List ContentBlock) (textParts : List String) :
    List ContentBlock × List String :=
  if file.isImage then
    match env.readBytes file.path with
    | some imageBuffer =>
      match toImageMediaType file.mimetype with
      | some mediaType =>
        ((flushParts blocks textParts).1 ++
           [ContentBlock.image mediaType (base64Encode imageBuffer)],
         (flushParts blocks textParts).2 ++ ["[Image: " ++ file.name ++ "]"])
      | none =>
        ((flushParts blocks textParts).1,
         (flushParts blocks textParts).2 ++
           ["[Unsupported image format: " ++ file.name ++ " (" ++ file.mimetype ++ ")]"])
    | none =>
      ((flushParts blocks textParts).1,
       (flushParts blocks textParts).2 ++ ["[Failed to read image: " ++ file.name ++ "]"])
  else if file.isText then
    match env.readText file.path with
    | some content =>
      if 10000 < content.length then
        (blocks, textParts ++
          ["## File: " ++ file.name ++ "\n```\n" ++ jsSubstring content 10000 ++ "...\n```"])
      else
        (blocks, textParts ++ ["## File: " ++ file.name ++ "\n```\n" ++ content ++ "\n```"])
    | none =>
      (blocks, textParts ++ ["[Error reading file: " ++ file.name ++ "]"])
  else
    (blocks, textParts ++
      ["[Binary file: " ++ file.name ++ " (" ++ file.mimetype ++ ", " ++
        toString file.size ++ " bytes)]"])

/-- The whole file loop of `buildContentBlocks`. -/
def processFiles (env : FsEnv) :
    List ProcessedFile → List ContentBlock → List String → List ContentBlock × List String
  | [], blocks, textParts => (blocks, textParts)
  | file :: rest, blocks, textParts =>
    let acc := processFile env file blocks textParts
    processFiles env rest acc.1 acc.2

/-- The seeding of `textParts` with the user's message when it is JS-truthy
(lines 176-178). -/
def initialParts (userText : String) : List String :=
  if userText ≠ "" then [userText] else []

/-- State of `(blocks, textParts)` after the `if (files.length > 0)` loop
(lines 180-227). -/
def loopResult (env : FsEnv) (files : List ProcessedFile) (userText : String) :
    List ContentBlock × List String :=
  if 0 < files.length then processFiles env files [] (initialParts userText)
  else ([], initialParts userText)

/-- State of `textParts` after the no-user-text directive of lines 229-231. -/
def finalParts (env : FsEnv) (files : List ProcessedFile) (userText : String) :
    List String :=
  if userText = "" ∧ 0 < files.length then
    (loopResult env files userText).2 ++ [analyzeDirective]
  else (loopResult env files userText).2

/-- Embedding of `FileHandler.buildContentBlocks` (lines 172-239). -/
def buildContentBlocks (env : FsEnv) (files : List ProcessedFile) (userText : String) :
    List ContentBlock :=
  if 0 < (finalParts env files userText).length then
    (loopResult env files userText).1 ++
      [ContentBlock.text (joinParts (finalParts env files userText))]
  else (loopResult env files userText).1

/-- Embedding of `FileHandler.hasImages` (lines 241-243). -/
def hasImages (files : List ProcessedFile) : Bool :=
  files.any fun f => f.isImage

/-! ## Theorems -/

/-- C3: `hasValidImageHeader` returns true exactly when the buffer starts with
one of the four magic prefixes (PNG `89 50 4E 47`, JPEG `FF D8 FF`, GIF
`47 49 46 38`, or WebP `52 49 46 46` at 0 together with `57 45 42 50` at 8);
every buffer shorter than 4 bytes yields false regardless of content, and a
RIFF-prefixed buffer of exactly 11 bytes yields false. -/
theorem c3_hasValidImageHeader_characterization (b : Buffer) :
    (hasValidImageHeader b = true ↔
      4 ≤ b.length ∧
        ((b.getD 0 0 = 0x89 ∧ b.getD 1 0 = 0x50 ∧ b.getD 2 0 = 0x4E ∧ b.getD 3 0 = 0x47) ∨
         (b.getD 0 0 = 0xFF ∧ b.getD 1 0 = 0xD8 ∧ b.getD 2 0 = 0xFF) ∨
         (b.getD 0 0 = 0x47 ∧ b.getD 1 0 = 0x49 ∧ b.getD 2 0 = 0x46 ∧ b.getD 3 0 = 0x38) ∨
         (b.getD 0 0 = 0x52 ∧ b.getD 1 0 = 0x49 ∧ b.getD 2 0 = 0x46 ∧ b.getD 3 0 = 0x46 ∧
          12 ≤ b.length ∧
          b.getD 8 0 = 0x57 ∧ b.getD 9 0 = 0x45 ∧ b.getD 10 0 = 0x42 ∧ b.getD 11 0 = 0x50))) ∧
    (b.length < 4 → hasValidImageHeader b = false) ∧
    (b.length = 11 → b.getD 0 0 = 0x52 → b.getD 1 0 = 0x49 → b.getD 2 0 = 0x46 →
      b.getD 3 0 = 0x46 → hasValidImageHeader b = false) := by
  have hiff : hasValidImageHeader b = true ↔
      4 ≤ b.length ∧
        ((b.getD 0 0 = 0x89 ∧ b.getD 1 0 = 0x50 ∧ b.getD 2 0 = 0x4E ∧ b.getD 3 0 = 0x47) ∨
         (b.getD 0 0 = 0xFF ∧ b.getD 1 0 = 0xD8 ∧ b.getD 2 0 = 0xFF) ∨
         (b.getD 0 0 = 0x47 ∧ b.getD 1 0 = 0x49 ∧ b.getD 2 0 = 0x46 ∧ b.getD 3 0 = 0x38) ∨
         (b.getD 0 0 = 0x52 ∧ b.getD 1 0 = 0x49 ∧ b.getD 2 0 = 0x46 ∧ b.getD 3 0 = 0x46 ∧
          12 ≤ b.length ∧
          b.getD 8 0 = 0x57 ∧ b.getD 9 0 = 0x45 ∧ b.getD 10 0 = 0x42 ∧ b.getD 11 0 = 0x50)) := by
    unfold hasValidImageHeader
    split
    · rename_i hlt
      simp only [Bool.false_eq_true, false_iff]
      rintro ⟨h4, -⟩
      omega
    · rename_i hlt
      split
      · rename_i hpng
        simp only [Bool.and_eq_true, beq_iff_eq] at hpng
        simp only [true_iff]
        exact ⟨by omega, Or.inl ⟨hpng.1.1.1, hpng.1.1.2, hpng.1.2, hpng.2⟩⟩
      · rename_i hpng
        split
        · rename_i hjpg
          simp only [Bool.and_eq_true, beq_iff_eq] at hjpg
          simp only [true_iff]
          exact ⟨by omega, Or.inr (Or.inl ⟨hjpg.1.1, hjpg.1.2, hjpg.2⟩)⟩
        · rename_i hjpg
          split
          · rename_i hgif
            simp only [Bool.and_eq_true, beq_iff_eq] at hgif
            simp only [true_iff]
            exact ⟨by omega, Or.inr (Or.inr (Or.inl ⟨hgif.1.1.1, hgif.1.1.2, hgif.1.2, hgif.2⟩))⟩
          · rename_i hgif
            split
            · rename_i hwebp
              simp only [Bool.and_eq_true, beq_iff_eq, decide_eq_true_eq] at hwebp
              simp only [true_iff]
              refine ⟨by omega, Or.inr (Or.inr (Or.inr ?_))⟩
              exact ⟨hwebp.1.1.1.1.1.1.1.1, hwebp.1.1.1.1.1.1.1.2, hwebp.1.1.1.1.1.1.2,
                hwebp.1.1.1.1.1.2, hwebp.1.1.1.1.2, hwebp.1.1.1.2, hwebp.1.1.2, hwebp.1.2,
                hwebp.2⟩
            · rename_i hwebp
              simp only [Bool.and_eq_true, beq_iff_eq, decide_eq_true_eq] at hpng hjpg hgif hwebp
              simp only [Bool.false_eq_true, false_iff]
              rintro ⟨h4, hc | hc | hc | hc⟩
              · exact hpng ⟨⟨⟨hc.1, hc.2.1⟩, hc.2.2.1⟩, hc.2.2.2⟩
              · exact hjpg ⟨⟨hc.1, hc.2.1⟩, hc.2.2⟩
              · exact hgif ⟨⟨⟨hc.1, hc.2.1⟩, hc.2.2.1⟩, hc.2.2.2⟩
              · obtain ⟨e0, e1, e2, e3, h12, e8, e9, e10, e11⟩ := hc
                exact hwebp ⟨⟨⟨⟨⟨⟨⟨⟨e0, e1⟩, e2⟩, e3⟩, h12⟩, e8⟩, e9⟩, e10⟩, e11⟩
  refine ⟨hiff, ?_, ?_⟩
  · intro hlt
    cases hval : hasValidImageHeader b with
    | false => rfl
    | true =>
      obtain ⟨h4, -⟩ := hiff.mp hval
      omega
  · intro h11 e0 e1 e2 e3
    cases hval : hasValidImageHeader b with
    | false => rfl
    | true =>
      obtain ⟨h4, hpng | hjpg | hgif | hwebpc⟩ := hiff.mp hval
      · rw [e0] at hpng; exact absurd hpng.1 (by decide)
      · rw [e0] at hjpg; exact absurd hjpg.1 (by decide)
      · rw [e0] at hgif; exact absurd hgif.1 (by decide)
      · obtain ⟨-, -, -, -, h12, -⟩ := hwebpc
        omega

/-- C3 witness: the characterization applied at concrete buffers, in
particular the 11-byte RIFF-prefixed buffer, which is rejected. -/
theorem c3_hasValidImageHeader_characterization_witness :
    hasValidImageHeader [0x52, 0x49, 0x46, 0x46, 0, 0, 0, 0, 0x57, 0x45, 0x42] = false :=
  (c3_hasValidImageHeader_characterization
      [0x52, 0x49, 0x46, 0x46, 0, 0, 0, 0, 0x57, 0x45, 0x42]).2.2
    (by decide) (by decide) (by decide) (by decide) (by decide)

/-- C8: `isImageFile` holds exactly when the mimetype begins with `image/`,
`isTextFile` holds exactly when it begins with one of the seven text-type
candidates, and the two are never both true for the same mimetype. -/
theorem c8_classifier_characterization (mimetype : String) :
    (isImageFile mimetype = true ↔ ∃ rest, mimetype.data = "image/".data ++ rest) ∧
    (isTextFile mimetype = true ↔
      ∃ p, p ∈ textTypes ∧ ∃ rest, mimetype.data = p.data ++ rest) ∧
    ¬(isImageFile mimetype = true ∧ isTextFile mimetype = true) := by
  refine ⟨jsStartsWith_iff mimetype "image/", ?_, ?_⟩
  · unfold isTextFile
    simp only [List.any_eq_true, jsStartsWith_iff]
  · rintro ⟨himg, htxt⟩
    obtain ⟨rest, hrest⟩ := (jsStartsWith_iff mimetype "image/").mp himg
    unfold isTextFile at htxt
    simp only [List.any_eq_true, jsStartsWith_iff] at htxt
    obtain ⟨p, hp, rest2, hrest2⟩ := htxt
    have himgdata : "image/".data = ['i', 'm', 'a', 'g', 'e', '/'] := rfl
    rw [himgdata] at hrest
    simp only [textTypes, List.mem_cons, List.not_mem_nil, or_false] at hp
    rcases hp with rfl | rfl | rfl | rfl | rfl | rfl | rfl <;>
      simp_all

/-- C8 witness: the characterization applied at `application/json`. -/
theorem c8_classifier_characterization_witness :
    isTextFile "application/json" = true :=
  (c8_classifier_characterization "application/json").2.1.mpr
    ⟨"application/json", by decide, [], by decide⟩

/-- C2: a declared image whose downloaded bytes fail `hasValidImageHeader` is
dropped (the download yields nothing), and every `ProcessedFile` the
downloader returns with `isImage` true comes from a fetched OK body that
passed signature validation. -/
theorem c2_image_signature_validated (env : NetEnv) (file : SlackFile) :
    (∀ url r, isImageFile file.mimetype = true →
      resolveDownloadUrl file.url_private_download file.url_private = some url →
      env.fetch url = some r → hasValidImageHeader r.body = false →
      downloadFile env file = none) ∧
    (∀ pf, downloadFile env file = some pf → pf.isImage = true →
      ∃ url r, resolveDownloadUrl file.url_private_download file.url_private = some url ∧
        env.fetch url = some r ∧ r.ok = true ∧ hasValidImageHeader r.body = true) := by
  constructor
  · intro url r himg hurl hfetch hbad
    unfold downloadFile
    split
    · rfl
    · split
      · rfl
      · rename_i url' hurl'
        rw [hurl] at hurl'
        injection hurl' with hu
        subst hu
        split
        · rfl
        · rename_i r' hfetch'
          rw [hfetch] at hfetch'
          injection hfetch' with hr
          subst hr
          simp only [himg, hbad]
          cases r.ok <;> simp
  · intro pf h himg
    unfold downloadFile at h
    split at h
    · exact absurd h (by simp)
    · split at h
      · exact absurd h (by simp)
      · rename_i url hurl
        split at h
        · exact absurd h (by simp)
        · rename_i r hfetch
          split at h
          · exact absurd h (by simp)
          · rename_i hok
            split at h
            · exact absurd h (by simp)
            · rename_i hcond
              simp only [Option.some.injEq] at h
              rw [← h] at himg
              simp only at himg
              refine ⟨url, r, hurl, hfetch, ?_, ?_⟩
              · cases hv : r.ok with
                | true => rfl
                | false => rw [hv] at hok; simp at hok
              · cases hv : hasValidImageHeader r.body with
                | true => rfl
                | false =>
                  exfalso
                  apply hcond
                  rw [himg, hv]
                  simp

/-- C2 witness: a PNG-typed descriptor whose fetched body is an HTML page is
dropped by the downloader. -/
theorem c2_image_signature_validated_witness :
    downloadFile
      { fetch := fun _ => some { ok := true, status := 200, body := [0x3C, 0x68, 0x74, 0x6D, 0x6C] }
        tmpdir := "/tmp", now := 0 }
      { name := "a.png", mimetype := "image/png", size := 10,
        url_private_download := some "https://u" } = none :=
  (c2_image_signature_validated
      { fetch := fun _ => some { ok := true, status := 200, body := [0x3C, 0x68, 0x74, 0x6D, 0x6C] }
        tmpdir := "/tmp", now := 0 }
      { name := "a.png", mimetype := "image/png", size := 10,
        url_private_download := some "https://u" }).1
    "https://u" { ok := true, status := 200, body := [0x3C, 0x68, 0x74, 0x6D, 0x6C] }
    (by decide) (by decide) rfl (by decide)

theorem downloadAndProcessFiles_eq_filterMap (env : NetEnv) :
    ∀ files, downloadAndProcessFiles env files = files.filterMap (downloadFile env) := by
  intro files
  induction files with
  | nil => rfl
  | cons f rest ih =>
    unfold downloadAndProcessFiles
    rw [List.filterMap_cons]
    cases h : downloadFile env f <;> simp [h, ih]

theorem filterMap_map_some_sublist {α β : Type} (f : α → Option β) :
    ∀ l : List α, ((l.filterMap f).map some).Sublist (l.map f) := by
  intro l
  induction l with
  | nil => simp
  | cons a l ih =>
    rw [List.map_cons, List.filterMap_cons]
    cases h : f a with
    | none => exact ih.cons none
    | some b =>
      rw [List.map_cons]
      exact ih.cons₂ (some b)

theorem downloadFile_none_of_missingUrl (env : NetEnv) (file : SlackFile)
    (hurl : resolveDownloadUrl file.url_private_download file.url_private = none) :
    downloadFile env file = none := by
  unfold downloadFile
  split
  · rfl
  · split
    · rfl
    · rename_i url' hurl'
      rw [hurl] at hurl'
      exact absurd hurl' (by simp)

theorem downloadFile_none_of_fetchFailure (env : NetEnv) (file : SlackFile) (url : String)
    (hurl : resolveDownloadUrl file.url_private_download file.url_private = some url)
    (hfetch : env.fetch url = none) :
    downloadFile env file = none := by
  unfold downloadFile
  split
  · rfl
  · split
    · rfl
    · rename_i url' hurl'
      rw [hurl] at hurl'
      injection hurl' with hu
      subst hu
      split
      · rfl
      · rename_i r' hfetch'
        rw [hfetch] at hfetch'
        exact absurd hfetch' (by simp)

theorem downloadFile_none_of_notOk (env : NetEnv) (file : SlackFile) (url : String)
    (r : HttpResponse)
    (hurl : resolveDownloadUrl file.url_private_download file.url_private = some url)
    (hfetch : env.fetch url = some r) (hok : r.ok = false) :
    downloadFile env file = none := by
  unfold downloadFile
  split
  · rfl
  · split
    · rfl
    · rename_i url' hurl'
      rw [hurl] at hurl'
      injection hurl' with hu
      subst hu
      split
      · rfl
      · rename_i r' hfetch'
        rw [hfetch] at hfetch'
        injection hfetch' with hr
        subst hr
        rw [hok]
        simp

theorem downloadFile_none_of_invalidImage (env : NetEnv) (file : SlackFile) (url : String)
    (r : HttpResponse) (himg : isImageFile file.mimetype = true)
    (hurl : resolveDownloadUrl file.url_private_download file.url_private = some url)
    (hfetch : env.fetch url = some r) (hbad : hasValidImageHeader r.body = false) :
    downloadFile env file = none := by
  unfold downloadFile
  split
  · rfl
  · split
    · rfl
    · rename_i url' hurl'
      rw [hurl] at hurl'
      injection hurl' with hu
      subst hu
      split
      · rfl
      · rename_i r' hfetch'
        rw [hfetch] at hfetch'
        injection hfetch' with hr
        subst hr
        simp only [himg, hbad]
        cases r.ok <;> simp

/-- C4: the downloader loop never raises (it is a total function into a plain
list), each per-file failure — missing URL, network error, non-OK status,
invalid image signature — yields `none` for that file alone, a failed file is
simply omitted from the batch result, and the surviving results keep the
relative order of their descriptors (the result mapped into `Option` is a
sublist of the per-descriptor download outcomes). -/
theorem c4_per_file_isolation_and_order (env : NetEnv) :
    (∀ files, ((downloadAndProcessFiles env files).map some).Sublist
        (files.map (downloadFile env))) ∧
    (∀ file : SlackFile,
      (resolveDownloadUrl file.url_private_download file.url_private = none ∨
       (∃ url, resolveDownloadUrl file.url_private_download file.url_private = some url ∧
         env.fetch url = none) ∨
       (∃ url r, resolveDownloadUrl file.url_private_download file.url_private = some url ∧
         env.fetch url = some r ∧ r.ok = false) ∨
       (∃ url r, resolveDownloadUrl file.url_private_download file.url_private = some url ∧
         env.fetch url = some r ∧ isImageFile file.mimetype = true ∧
         hasValidImageHeader r.body = false)) →
      downloadFile env file = none) ∧
    (∀ pre file post, downloadFile env file = none →
      downloadAndProcessFiles env (pre ++ file :: post) =
        downloadAndProcessFiles env pre ++ downloadAndProcessFiles env post) := by
  refine ⟨?_, ?_, ?_⟩
  · intro files
    rw [downloadAndProcessFiles_eq_filterMap]
    exact filterMap_map_some_sublist (downloadFile env) files
  · intro file hfail
    rcases hfail with hurl | ⟨url, hurl, hfetch⟩ | ⟨url, r, hurl, hfetch, hok⟩ |
      ⟨url, r, hurl, hfetch, himg, hbad⟩
    · exact downloadFile_none_of_missingUrl env file hurl
    · exact downloadFile_none_of_fetchFailure env file url hurl hfetch
    · exact downloadFile_none_of_notOk env file url r hurl hfetch hok
    · exact downloadFile_none_of_invalidImage env file url r himg hurl hfetch hbad
  · intro pre file post h
    rw [downloadAndProcessFiles_eq_filterMap, downloadAndProcessFiles_eq_filterMap,
      downloadAndProcessFiles_eq_filterMap]
    rw [List.filterMap_append, List.filterMap_cons, h]

/-- C4 witness: a descriptor with no download URL is omitted while its
neighbours survive. -/
theorem c4_per_file_isolation_and_order_witness :
    downloadAndProcessFiles
      { fetch := fun _ => none, tmpdir := "/tmp", now := 0 }
      ([] ++ { name := "a.bin", mimetype := "application/zip", size := 1 } :: []) =
    downloadAndProcessFiles { fetch := fun _ => none, tmpdir := "/tmp", now := 0 } [] ++
      downloadAndProcessFiles { fetch := fun _ => none, tmpdir := "/tmp", now := 0 } [] :=
  (c4_per_file_isolation_and_order
      { fetch := fun _ => none, tmpdir := "/tmp", now := 0 }).2.2
    [] { name := "a.bin", mimetype := "application/zip", size := 1 } [] (by decide)

/-- C6: a descriptor whose declared size exceeds 50 MiB is rejected before any
network access (the result is `none` whatever the fetch oracle answers), such
a file never appears in the batch result, and every `ProcessedFile` the
downloader returns has `size` at most 50 MiB. -/
theorem c6_size_limit (env : NetEnv) :
    (∀ file : SlackFile, sizeLimit < file.size → downloadFile env file = none) ∧
    (∀ file pf, downloadFile env file = some pf → pf.size ≤ sizeLimit) ∧
    (∀ pre file post, sizeLimit < file.size →
      downloadAndProcessFiles env (pre ++ file :: post) =
        downloadAndProcessFiles env pre ++ downloadAndProcessFiles env post) := by
  have hnone : ∀ file : SlackFile, sizeLimit < file.size → downloadFile env file = none := by
    intro file hsize
    unfold downloadFile
    rw [if_pos hsize]
  refine ⟨hnone, ?_, ?_⟩
  · intro file pf h
    unfold downloadFile at h
    split at h
    · exact absurd h (by simp)
    · rename_i hsize
      split at h
      · exact absurd h (by simp)
      · split at h
        · exact absurd h (by simp)
        · split at h
          · exact absurd h (by simp)
          · split at h
            · exact absurd h (by simp)
            · simp only [Option.some.injEq] at h
              rw [← h]
              simp only
              omega
  · intro pre file post hsize
    rw [downloadAndProcessFiles_eq_filterMap, downloadAndProcessFiles_eq_filterMap,
      downloadAndProcessFiles_eq_filterMap]
    rw [List.filterMap_append, List.filterMap_cons, hnone file hsize]

/-- C6 witness: a 60,000,000-byte descriptor is rejected whatever the network
would have answered, and omitted from the batch. -/
theorem c6_size_limit_witness :
    downloadFile { fetch := fun _ => none, tmpdir := "/tmp", now := 0 }
      { name := "big.bin", mimetype := "application/zip", size := 60000000,
        url_private_download := some "https://u" } = none :=
  (c6_size_limit { fetch := fun _ => none, tmpdir := "/tmp", now := 0 }).1
    { name := "big.bin", mimetype := "application/zip", size := 60000000,
      url_private_download := some "https://u" } (by decide)

theorem downloadFile_tempPath (env : NetEnv) (file : SlackFile) (pf : ProcessedFile)
    (h : downloadFile env file = some pf) :
    pf.tempPath = some pf.path ∧ pf.path ≠ "" := by
  unfold downloadFile at h
  split at h
  · exact absurd h (by simp)
  · split at h
    · exact absurd h (by simp)
    · split at h
      · exact absurd h (by simp)
      · split at h
        · exact absurd h (by simp)
        · split at h
          · exact absurd h (by simp)
          · simp only [Option.some.injEq] at h
            rw [← h]
            refine ⟨rfl, ?_⟩
            intro hc
            have hlen := congrArg String.length hc
            simp only [mkTempPath, String.length_append] at hlen
            have h1 : ("/" : String).length = 1 := rfl
            have h2 : ("" : String).length = 0 := rfl
            have h3 : ("slack-file-" : String).length = 11 := rfl
            have h4 : ("-" : String).length = 1 := rfl
            omega

/-- C10: every `ProcessedFile` the downloader returns carries
`tempPath = some path` with a non-empty path equal to its `path` field, so the
cleanup pass attempts deletion of exactly the `path` of every downloaded
file, skipping none. -/
theorem c10_tempPath_always_populated (env : NetEnv) :
    (∀ file pf, downloadFile env file = some pf →
      pf.tempPath = some pf.path ∧ pf.path ≠ "") ∧
    (∀ files, cleanupTempFiles (downloadAndProcessFiles env files) =
      (downloadAndProcessFiles env files).map fun pf => pf.path) := by
  refine ⟨fun file pf h => downloadFile_tempPath env file pf h, ?_⟩
  intro files
  induction files with
  | nil => rfl
  | cons f rest ih =>
    unfold downloadAndProcessFiles
    cases h : downloadFile env f with
    | none => exact ih
    | some pf =>
      obtain ⟨htp, hne⟩ := downloadFile_tempPath env f pf h
      simp only [cleanupTempFiles, List.filterMap_cons, htp, hne, List.map_cons,
        ne_eq, not_false_iff, if_true]
      simp only [cleanupTempFiles, ne_eq] at ih
      rw [ih]

/-- C10 witness: a successful download at a concrete environment yields a
populated temp path equal to the stored path. -/
theorem c10_tempPath_always_populated_witness :
    ({ path := "/tmp/slack-file-7-a.png", name := "a.png", mimetype := "image/png",
       isImage := true, isText := false, size := 4,
       tempPath := some "/tmp/slack-file-7-a.png" } : ProcessedFile).tempPath =
      some "/tmp/slack-file-7-a.png" ∧ ("/tmp/slack-file-7-a.png" : String) ≠ "" :=
  (c10_tempPath_always_populated
      { fetch := fun _ => some { ok := true, status := 200, body := [0x89, 0x50, 0x4E, 0x47] }
        tmpdir := "/tmp", now := 7 }).1
    { name := "a.png", mimetype := "image/png", size := 4,
      url_private_download := some "https://u" }
    { path := "/tmp/slack-file-7-a.png", name := "a.png", mimetype := "image/png",
      isImage := true, isText := false, size := 4,
      tempPath := some "/tmp/slack-file-7-a.png" }
    (by decide)

theorem strLength_eq_zero_iff (s : String) : s.length = 0 ↔ s = "" := by
  cases s with
  | mk data =>
    constructor
    · intro h
      have hdata : data = [] := List.length_eq_zero.mp h
      rw [hdata]
    · intro h
      rw [h]
      decide

theorem append_ne_empty_of_left (a b : String) (ha : 0 < a.length) : a ++ b ≠ "" := by
  intro hc
  have hlen := congrArg String.length hc
  rw [String.length_append] at hlen
  have h2 : ("" : String).length = 0 := rfl
  omega

theorem length_append_pos_left (a b : String) (ha : 0 < a.length) : 0 < (a ++ b).length := by
  rw [String.length_append]
  omega

theorem joinParts_ne_empty :
    ∀ l : List String, l ≠ [] → (∀ x ∈ l, x ≠ "") → joinParts l ≠ ""
  | [], hne, _ => absurd rfl hne
  | [x], _, hall => by simpa [joinParts] using hall x (by simp)
  | x :: y :: rest, _, hall => by
    intro hc
    have hlen := congrArg String.length hc
    simp only [joinParts, String.length_append] at hlen
    have h1 : ("\n\n" : String).length = 2 := rfl
    have h2 : ("" : String).length = 0 := rfl
    omega

theorem string_mk_append (a b : List Char) :
    String.mk a ++ String.mk b = String.mk (a ++ b) := rfl

theorem jsSubstring_spec (s : String) (n : Nat) (h : n ≤ s.length) :
    s = jsSubstring s n ++ String.mk (s.data.drop n) ∧ (jsSubstring s n).length = n := by
  constructor
  · cases s with
    | mk data =>
      rw [jsSubstring, string_mk_append, List.take_append_drop]
  · cases s with
    | mk data =>
      have : (String.mk (data.take n)).length = (data.take n).length := rfl
      rw [jsSubstring, this, List.length_take]
      exact Nat.min_eq_left h

/-- C7: a text-classified file whose readable content is longer than 10,000
characters contributes the fragment `## File: <name>` with a fenced block
holding exactly the first 10,000 characters followed by the `...` marker,
while content of length at most 10,000 is embedded whole. -/
theorem c7_text_truncation (env : FsEnv) (file : ProcessedFile)
    (blocks : List ContentBlock) (textParts : List String) (content : String)
    (himg : file.isImage = false) (htxt : file.isText = true)
    (hread : env.readText file.path = some content) :
    (10000 < content.length →
      ∃ t rest, content = t ++ rest ∧ t.length = 10000 ∧
        processFile env file blocks textParts =
          (blocks, textParts ++
            ["## File: " ++ file.name ++ "\n```\n" ++ t ++ "...\n```"])) ∧
    (content.length ≤ 10000 →
      processFile env file blocks textParts =
        (blocks, textParts ++
          ["## File: " ++ file.name ++ "\n```\n" ++ content ++ "\n```"])) := by
  constructor
  · intro hlong
    obtain ⟨hsplit, hlen⟩ := jsSubstring_spec content 10000 (Nat.le_of_lt hlong)
    refine ⟨jsSubstring content 10000, String.mk (content.data.drop 10000), hsplit, hlen, ?_⟩
    unfold processFile
    rw [himg, htxt, hread]
    simp only [Bool.false_eq_true, if_false, if_true, if_pos hlong]
  · intro hshort
    unfold processFile
    rw [himg, htxt, hread]
    simp only [Bool.false_eq_true, if_false, if_true]
    rw [if_neg (by omega)]

/-- C7 witness: a 10,050-character text file is embedded as its first 10,000
characters followed by the truncation marker. -/
theorem c7_text_truncation_witness :
    ∃ t rest, String.mk (List.replicate 10050 'a') = t ++ rest ∧ t.length = 10000 ∧
      processFile
        { readBytes := fun _ => none
          readText := fun _ => some (String.mk (List.replicate 10050 'a')) }
        { path := "/tmp/t.txt", name := "t.txt", mimetype := "text/plain",
          isImage := false, isText := true, size := 10050 }
        [] [] =
      ([], [] ++ ["## File: " ++ "t.txt" ++ "\n```\n" ++ t ++ "...\n```"]) :=
  (c7_text_truncation
      { readBytes := fun _ => none
        readText := fun _ => some (String.mk (List.replicate 10050 'a')) }
      { path := "/tmp/t.txt", name := "t.txt", mimetype := "text/plain",
        isImage := false, isText := true, size := 10050 }
      [] [] (String.mk (List.replicate 10050 'a')) rfl rfl rfl).1
    (by
      have h : (String.mk (List.replicate 10050 'a')).length = 10050 :=
        List.length_replicate 10050 'a'
      omega)

/-- C1 counterexample environment: reading any path yields the four PNG magic
bytes. -/
def c1Env : FsEnv :=
  { readBytes := fun _ => some [0x89, 0x50, 0x4E, 0x47], readText := fun _ => none }

/-- C1 counterexample file: a processed PNG image. -/
def c1File : ProcessedFile :=
  { path := "/tmp/img.png", name := "img.png", mimetype := "image/png",
    isImage := true, isText := false, size := 4, tempPath := some "/tmp/img.png" }

/-- C1 counterexample: with one image file and empty user text the builder
emits exactly two blocks — an `ImageBlock` first, then one `TextBlock` — not
the three blocks (leading `TextBlock`, `ImageBlock`, trailing `TextBlock`)
the claim describes: nothing is flushed before the image because the pending
buffer is empty. -/
theorem c1_counterexample_two_blocks :
    buildContentBlocks c1Env [c1File] "" =
      [ContentBlock.image "image/png" "iVBORw==",
       ContentBlock.text
         ("[Image: img.png]\n\nPlease analyze these files and provide insights or assistance based on their content.")] ∧
    (buildContentBlocks c1Env [c1File] "").length = 2 := by
  constructor
  · decide
  · decide

/-- C1 (amended): with one image file (supported media type, readable bytes)
and empty user text, the builder returns exactly two blocks: the `ImageBlock`,
then a final `TextBlock` containing `[Image: <name>]` joined to the generic
no-user-text directive by the blank-line separator. -/
theorem c1_amended_single_image_no_text (env : FsEnv) (file : ProcessedFile)
    (bytes : Buffer) (mt : String) (himg : file.isImage = true)
    (hread : env.readBytes file.path = some bytes)
    (hmt : toImageMediaType file.mimetype = some mt) :
    buildContentBlocks env [file] "" =
      [ContentBlock.image mt (base64Encode bytes),
       ContentBlock.text ("[Image: " ++ file.name ++ "]" ++ "\n\n" ++ analyzeDirective)] := by
  simp [buildContentBlocks, loopResult, finalParts, initialParts, processFiles, processFile,
    flushParts, himg, hread, hmt, joinParts, String.append_assoc]

/-- C1 witness: the amended statement applied at the counterexample input. -/
theorem c1_amended_single_image_no_text_witness :
    buildContentBlocks c1Env [c1File] "" =
      [ContentBlock.image "image/png" (base64Encode [0x89, 0x50, 0x4E, 0x47]),
       ContentBlock.text ("[Image: " ++ "img.png" ++ "]" ++ "\n\n" ++ analyzeDirective)] :=
  c1_amended_single_image_no_text c1Env c1File [0x89, 0x50, 0x4E, 0x47] "image/png"
    rfl rfl rfl

/-- C5: with non-empty user text and a single readable, supported image file,
the builder returns exactly three blocks: the pending text flushed as one
`TextBlock` (the joined fragments are just the user text) before the image,
then the `ImageBlock`, then a final `TextBlock` carrying the `[Image: <name>]`
caption, which was buffered rather than flushed right after the image. -/
theorem c5_flush_before_image (env : FsEnv) (file : ProcessedFile) (userText : String)
    (bytes : Buffer) (mt : String) (hu : userText ≠ "") (himg : file.isImage = true)
    (hread : env.readBytes file.path = some bytes)
    (hmt : toImageMediaType file.mimetype = some mt) :
    buildContentBlocks env [file] userText =
      [ContentBlock.text (joinParts [userText]),
       ContentBlock.image mt (base64Encode bytes),
       ContentBlock.text ("[Image: " ++ file.name ++ "]")] := by
  simp [buildContentBlocks, loopResult, finalParts, initialParts, processFiles, processFile,
    flushParts, himg, hread, hmt, joinParts, hu, String.append_assoc]

/-- C5 witness: the statement applied at a concrete image and message. -/
theorem c5_flush_before_image_witness :
    buildContentBlocks c1Env [c1File] "look at this" =
      [ContentBlock.text (joinParts ["look at this"]),
       ContentBlock.image "image/png" (base64Encode [0x89, 0x50, 0x4E, 0x47]),
       ContentBlock.text ("[Image: " ++ "img.png" ++ "]")] :=
  c5_flush_before_image c1Env c1File "look at this" [0x89, 0x50, 0x4E, 0x47] "image/png"
    (by decide) rfl rfl rfl

theorem flushParts_text_nonempty (blocks : List ContentBlock) (textParts : List String)
    (hb : ∀ t, ContentBlock.text t ∈ blocks → t ≠ "")
    (hp : ∀ x ∈ textParts, x ≠ "") :
    (∀ t, ContentBlock.text t ∈ (flushParts blocks textParts).1 → t ≠ "") ∧
    (∀ x ∈ (flushParts blocks textParts).2, x ≠ "") := by
  unfold flushParts
  split
  · rename_i hpos
    refine ⟨?_, by simp⟩
    intro t ht
    rw [List.mem_append, List.mem_singleton] at ht
    rcases ht with ht | ht
    · exact hb t ht
    · simp only [ContentBlock.text.injEq] at ht
      rw [ht]
      exact joinParts_ne_empty textParts (List.length_pos.mp hpos) hp
  · exact ⟨hb, hp⟩

theorem processFile_text_nonempty (env : FsEnv) (file : ProcessedFile)
    (blocks : List ContentBlock) (textParts : List String)
    (hb : ∀ t, ContentBlock.text t ∈ blocks → t ≠ "")
    (hp : ∀ x ∈ textParts, x ≠ "") :
    (∀ t, ContentBlock.text t ∈ (processFile env file blocks textParts).1 → t ≠ "") ∧
    (∀ x ∈ (processFile env file blocks textParts).2, x ≠ "") := by
  obtain ⟨hfb, hfp⟩ := flushParts_text_nonempty blocks textParts hb hp
  unfold processFile
  split
  · split
    · split
      · constructor
        · intro t ht
          rw [List.mem_append, List.mem_singleton] at ht
          rcases ht with ht | ht
          · exact hfb t ht
          · exact absurd ht (by simp)
        · intro x hx
          rw [List.mem_append, List.mem_singleton] at hx
          rcases hx with hx | hx
          · exact hfp x hx
          · rw [hx]
            apply append_ne_empty_of_left
            repeat apply length_append_pos_left
            decide
      · refine ⟨hfb, ?_⟩
        intro x hx
        rw [List.mem_append, List.mem_singleton] at hx
        rcases hx with hx | hx
        · exact hfp x hx
        · rw [hx]
          apply append_ne_empty_of_left
          repeat apply length_append_pos_left
          decide
    · refine ⟨hfb, ?_⟩
      intro x hx
      rw [List.mem_append, List.mem_singleton] at hx
      rcases hx with hx | hx
      · exact hfp x hx
      · rw [hx]
        apply append_ne_empty_of_left
        repeat apply length_append_pos_left
        decide
  · split
    · split
      · split
        · refine ⟨hb, ?_⟩
          intro x hx
          rw [List.mem_append, List.mem_singleton] at hx
          rcases hx with hx | hx
          · exact hp x hx
          · rw [hx]
            apply append_ne_empty_of_left
            repeat apply length_append_pos_left
            decide
        · refine ⟨hb, ?_⟩
          intro x hx
          rw [List.mem_append, List.mem_singleton] at hx
          rcases hx with hx | hx
          · exact hp x hx
          · rw [hx]
            apply append_ne_empty_of_left
            repeat apply length_append_pos_left
            decide
      · refine ⟨hb, ?_⟩
        intro x hx
        rw [List.mem_append, List.mem_singleton] at hx
        rcases hx with hx | hx
        · exact hp x hx
        · rw [hx]
          apply append_ne_empty_of_left
          repeat apply length_append_pos_left
          decide
    · refine ⟨hb, ?_⟩
      intro x hx
      rw [List.mem_append, List.mem_singleton] at hx
      rcases hx with hx | hx
      · exact hp x hx
      · rw [hx]
        apply append_ne_empty_of_left
        repeat apply length_append_pos_left
        decide

theorem processFiles_text_nonempty (env : FsEnv) :
    ∀ (files : List ProcessedFile) (blocks : List ContentBlock) (textParts : List String),
      (∀ t, ContentBlock.text t ∈ blocks → t ≠ "") →
      (∀ x ∈ textParts, x ≠ "") →
      (∀ t, ContentBlock.text t ∈ (processFiles env files blocks textParts).1 → t ≠ "") ∧
      (∀ x ∈ (processFiles env files blocks textParts).2, x ≠ "") := by
  intro files
  induction files with
  | nil => exact fun blocks textParts hb hp => ⟨hb, hp⟩
  | cons f rest ih =>
    intro blocks textParts hb hp
    obtain ⟨hb', hp'⟩ := processFile_text_nonempty env f blocks textParts hb hp
    exact ih _ _ hb' hp'

/-- C9: with no files and empty user text the builder returns the empty
sequence; with no files and text `hello` it returns exactly one `TextBlock`
with that text; and no `TextBlock` it ever emits has empty text. -/
theorem c9_degenerate_inputs_and_no_empty_block (env : FsEnv) :
    buildContentBlocks env [] "" = [] ∧
    buildContentBlocks env [] "hello" = [ContentBlock.text "hello"] ∧
    (∀ files userText t,
      ContentBlock.text t ∈ buildContentBlocks env files userText → t ≠ "") := by
  refine ⟨rfl, rfl, ?_⟩
  intro files userText t ht
  have hp0 : ∀ x ∈ initialParts userText, x ≠ "" := by
    unfold initialParts
    split
    · rename_i h
      intro x hx
      rw [List.mem_singleton] at hx
      rw [hx]
      exact h
    · intro x hx
      simp at hx
  have hloop : (∀ u, ContentBlock.text u ∈ (loopResult env files userText).1 → u ≠ "") ∧
      (∀ x ∈ (loopResult env files userText).2, x ≠ "") := by
    unfold loopResult
    split
    · exact processFiles_text_nonempty env files [] (initialParts userText)
        (fun u hu => absurd hu (by simp)) hp0
    · exact ⟨fun u hu => absurd hu (by simp), hp0⟩
  have hfinal : ∀ x ∈ finalParts env files userText, x ≠ "" := by
    unfold finalParts
    split
    · intro x hx
      rw [List.mem_append, List.mem_singleton] at hx
      rcases hx with hx | hx
      · exact hloop.2 x hx
      · rw [hx]
        decide
    · exact hloop.2
  unfold buildContentBlocks at ht
  split at ht
  · rename_i hpos
    rw [List.mem_append, List.mem_singleton] at ht
    rcases ht with ht | ht
    · exact hloop.1 t ht
    · simp only [ContentBlock.text.injEq] at ht
      rw [ht]
      exact joinParts_ne_empty _ (List.length_pos.mp hpos) hfinal
  · exact hloop.1 t ht

/-- C9 witness: the no-empty-block clause applied at a concrete input. -/
theorem c9_degenerate_inputs_and_no_empty_block_witness :
    ("hello" : String) ≠ "" :=
  (c9_degenerate_inputs_and_no_empty_block c1Env).2.2 [] "hello" "hello" (by decide)

end FileHandlerModel
